import Mathlib

/-!
Shallow embedding of the streaming audio playback pipeline of
`src/index.tsx` (the `PromptDjController` Lit component and its helpers).
Times and durations are modelled as rationals in the audio clock's time
base (seconds), matching the JS numbers used by the source.
-/

namespace MusicDJ

/-- The playback state machine, `type PlaybackState` in `src/index.tsx`. -/
inductive PlaybackState where
  | stopped
  | playing
  | loading
  | paused
deriving DecidableEq, Repr

/-- A prompt, `interface Prompt` in `src/index.tsx`. -/
structure Prompt where
  promptId : String
  text : String
  weight : ℚ
  color : String
deriving DecidableEq, Repr

/-- The mutable fields of `PromptDjController` that the playback pipeline
reads and writes: the prompt map (as the ordered list of its values), the
playback state, the schedule cursor `nextStartTime`, the filtered-prompt
set (as a duplicate-free list of texts), the `connectionError` flag and
whether `this.session` is non-null. -/
structure CtrlState where
  prompts : List Prompt
  playbackState : PlaybackState
  nextStartTime : ℚ
  filteredPrompts : List String
  connectionError : Bool
  sessionPresent : Bool
deriving DecidableEq, Repr

/-- `private readonly bufferTime = 1.5` (seconds), `src/index.tsx:295`. -/
def bufferTime : ℚ := 3 / 2

/-- The underrun re-anchor gap `0.2` (seconds) of `src/index.tsx:393`. -/
def underrunGap : ℚ := 1 / 5

/-- The `setSessionPrompts` throttle delay, 250 milliseconds
(`src/index.tsx:466`). -/
def throttleDelay : ℚ := 250

/-- Result of handling one audio chunk: the new controller state, the
`source.start` call if one happened (start time and buffer duration), and
the `setTimeout` delay in milliseconds if the loading-to-playing timer was
armed. -/
structure ChunkResult where
  state : CtrlState
  scheduled : Option (ℚ × ℚ)
  timer : Option ℚ
deriving DecidableEq, Repr

/-- The body of the `setTimeout` callback of `src/index.tsx:379-384`: move
to `playing` only when the state is still `loading` at fire time. -/
def bufferTimerFire (s : CtrlState) : CtrlState :=
  if s.playbackState = PlaybackState.loading then
    { s with playbackState := PlaybackState.playing }
  else s

/-- The underrun guard of `src/index.tsx:389-394`: when the cursor has
fallen behind the clock and the state is neither paused nor stopped, force
`loading` and re-anchor the cursor to `now + 0.2`. -/
def underrunAdjust (s : CtrlState) (now : ℚ) : CtrlState :=
  if s.nextStartTime < now ∧ s.playbackState ≠ PlaybackState.paused ∧
      s.playbackState ≠ PlaybackState.stopped then
    { s with playbackState := PlaybackState.loading,
             nextStartTime := now + underrunGap }
  else s

/-- The scheduling part of the `onmessage` audio-chunk branch, after the
decode has produced a buffer of duration `dur`
(`src/index.tsx:377-396`). `now` is `audioContext.currentTime`. -/
def scheduleChunk (s : CtrlState) (now dur : ℚ) : ChunkResult :=
  if s.nextStartTime = 0 ∧ s.playbackState = PlaybackState.loading then
    let s2 := underrunAdjust { s with nextStartTime := now + bufferTime } now
    { state := { s2 with nextStartTime := s2.nextStartTime + dur },
      scheduled := some (s2.nextStartTime, dur),
      timer := some (bufferTime * 1000) }
  else if s.nextStartTime = 0 then
    { state := s, scheduled := none, timer := none }
  else
    let s2 := underrunAdjust s now
    { state := { s2 with nextStartTime := s2.nextStartTime + dur },
      scheduled := some (s2.nextStartTime, dur),
      timer := none }

/-- The whole audio-chunk branch of `onmessage` (`src/index.tsx:362-397`):
chunks arriving while paused or stopped are dropped before decoding, a
failed decode (`decoded = none`) drops the chunk, otherwise the decoded
buffer is scheduled. -/
def handleChunkEvent (s : CtrlState) (now : ℚ) (decoded : Option ℚ) :
    ChunkResult :=
  if s.playbackState = PlaybackState.paused ∨
      s.playbackState = PlaybackState.stopped then
    { state := s, scheduled := none, timer := none }
  else
    match decoded with
    | none => { state := s, scheduled := none, timer := none }
    | some dur => scheduleChunk s now dur

/-- `getPromptsToSend` (`src/index.tsx:433-437`): the texts and weights of
the prompts that are not filtered and have positive weight. -/
def getPromptsToSend (s : CtrlState) : List (String × ℚ) :=
  (s.prompts.filter
    (fun p => !(s.filteredPrompts.contains p.text) && decide ((0 : ℚ) < p.weight))).map
    (fun p => (p.text, p.weight))

/-- `pause()` (`src/index.tsx:544-557`), restricted to the state fields the
pipeline tracks: the playback state becomes `paused` (the gain ramp to 0 is
not modelled). -/
def pause (s : CtrlState) : CtrlState :=
  { s with playbackState := PlaybackState.paused }

/-- `stop()` (`src/index.tsx:598-615`): the session handle is nulled, the
state becomes `stopped` and the cursor is reset to the unset sentinel. -/
def stop (s : CtrlState) : CtrlState :=
  { s with sessionPresent := false, playbackState := PlaybackState.stopped,
           nextStartTime := 0 }

/-- Result of `connectToSession` (`src/index.tsx:344-430`): the new state,
whether the function returned `true`, and the number of toasts shown. -/
structure ConnectResult where
  state : CtrlState
  ok : Bool
  toasts : Nat
deriving DecidableEq, Repr

/-- `connectToSession` with the outcome of the awaited
`ai.live.music.connect` call abstracted as `connectOk`. If a session is
already present without a connection error it returns immediately;
otherwise the state is set to `loading` before connecting, and a failure
flips it to `stopped` with `connectionError` set and a toast. -/
def connectToSession (s : CtrlState) (connectOk : Bool) : ConnectResult :=
  if s.sessionPresent && !s.connectionError then
    { state := s, ok := true, toasts := 0 }
  else if connectOk then
    let s' := { s with playbackState := PlaybackState.loading,
                       connectionError := false, sessionPresent := true }
    { state := s', ok := true, toasts := 0 }
  else
    let s' := { s with playbackState := PlaybackState.stopped,
                       connectionError := true }
    { state := s', ok := false, toasts := 1 }

/-- Result of one execution of the throttled `setSessionPrompts` body: the
new state, the payload of the `session.setWeightedPrompts` call if the call
was made, the number of toasts shown, and whether `pause()` was invoked. -/
structure PushResult where
  state : CtrlState
  upstream : Option (List (String × ℚ))
  toasts : Nat
  pauseInvoked : Bool
deriving DecidableEq, Repr

/-- The body of `setSessionPrompts` (`src/index.tsx:439-466`), with the
outcome of the awaited `setWeightedPrompts` call abstracted as `pushOk`.
On a successful non-empty push every filtered text absent from the pushed
payload is deleted from the filtered set. -/
def setSessionPromptsBody (s : CtrlState) (pushOk : Bool) : PushResult :=
  if !s.sessionPresent || s.connectionError then
    { state := s, upstream := none, toasts := 0, pauseInvoked := false }
  else
    let pts := getPromptsToSend s
    if pts = [] ∧ (s.playbackState = PlaybackState.playing ∨
        s.playbackState = PlaybackState.loading) then
      { state := pause s, upstream := none, toasts := 1, pauseInvoked := true }
    else if pts = [] then
      { state := s, upstream := none, toasts := 0, pauseInvoked := false }
    else if pushOk then
      let s' := { s with filteredPrompts :=
        s.filteredPrompts.filter (fun t => (pts.map Prod.fst).contains t) }
      { state := s', upstream := some pts, toasts := 0, pauseInvoked := false }
    else
      { state := s, upstream := some pts, toasts := 1, pauseInvoked := false }

/-- Result of `play()`: the new state, whether `session.play()` was
signaled, and the number of toasts shown. -/
structure PlayResult where
  state : CtrlState
  played : Bool
  toasts : Nat
deriving DecidableEq, Repr

/-- The part of `play()` after the session is known to exist
(`src/index.tsx:573-596`). `throttleFires` abstracts whether the throttled
`setSessionPrompts` wrapper actually ran its body. -/
def playAfterConnect (s : CtrlState) (t0 : Nat) (pushOk throttleFires : Bool) :
    PlayResult :=
  if getPromptsToSend s = [] then
    if s.playbackState = PlaybackState.playing ∨
        s.playbackState = PlaybackState.loading then
      { state := pause s, played := false, toasts := t0 + 1 }
    else
      { state := s, played := false, toasts := t0 + 1 }
  else
    let r := if throttleFires then setSessionPromptsBody s pushOk
             else { state := s, upstream := none, toasts := 0, pauseInvoked := false }
    if r.state.playbackState = PlaybackState.paused ∧
        getPromptsToSend r.state = [] then
      { state := r.state, played := false, toasts := t0 + r.toasts }
    else
      let s' := { r.state with playbackState := PlaybackState.loading,
                               nextStartTime := 0 }
      { state := s', played := true, toasts := t0 + r.toasts }

/-- `play()` (`src/index.tsx:559-596`). -/
def play (s : CtrlState) (connectOk pushOk throttleFires : Bool) : PlayResult :=
  if !s.sessionPresent || s.connectionError then
    let c := connectToSession s connectOk
    if !c.ok then
      { state := { c.state with playbackState := PlaybackState.stopped },
        played := false, toasts := 1 + c.toasts + 1 }
    else
      playAfterConnect c.state (1 + c.toasts) pushOk throttleFires
  else
    playAfterConnect s 0 pushOk throttleFires

/-- `handlePlayPause` (`src/index.tsx:617-626`): pause when playing, play
when paused or stopped, stop (cancel) when loading. -/
def handlePlayPause (s : CtrlState) (connectOk pushOk throttleFires : Bool) :
    CtrlState :=
  match s.playbackState with
  | PlaybackState.playing => pause s
  | PlaybackState.paused => (play s connectOk pushOk throttleFires).state
  | PlaybackState.stopped => (play s connectOk pushOk throttleFires).state
  | PlaybackState.loading => stop s

/-- The `filteredPrompt` branch of `onmessage` (`src/index.tsx:357-361`):
the filtered text is added to the set and a toast is shown. -/
def handleFilteredPrompt (s : CtrlState) (text : String) : CtrlState × Nat :=
  ({ s with filteredPrompts :=
      if s.filteredPrompts.contains text then s.filteredPrompts
      else s.filteredPrompts ++ [text] }, 1)

/-- `onclose` (`src/index.tsx:408-418`): an unclean close while not
stopped forces `stopped`, sets `connectionError` and shows a toast; the
session handle is cleared in every case. -/
def onClose (s : CtrlState) (wasClean : Bool) : CtrlState × Nat :=
  let r :=
    if !wasClean && !(s.playbackState == PlaybackState.stopped) then
      ({ s with connectionError := true,
                playbackState := PlaybackState.stopped }, 1)
    else (s, 0)
  ({ r.1 with sessionPresent := false }, r.2)

/-- The state mutation of `handlePromptChanged` (`src/index.tsx:475-499`):
update the prompt with the given id; when the text changed and the old
text was filtered, drop the old text from the filtered set. -/
def handlePromptChanged (s : CtrlState) (promptId text : String) (weight : ℚ)
    (color : String) : CtrlState :=
  match s.prompts.find? (fun p => p.promptId == promptId) with
  | none => s
  | some prompt =>
    if prompt.text ≠ text ∨ prompt.weight ≠ weight ∨ prompt.color ≠ color then
      { s with
        prompts := s.prompts.map (fun p =>
          if p.promptId == promptId then
            { p with text := text, weight := weight, color := color }
          else p),
        filteredPrompts :=
          if s.filteredPrompts.contains prompt.text && !(text == prompt.text) then
            s.filteredPrompts.filter (fun t => !(t == prompt.text))
          else s.filteredPrompts }
    else s

/-- Handling a list of chunks in arrival order, each given as
`(audioContext.currentTime at handling, decoded buffer duration)`;
returns the final state and the list of `source.start` events. -/
def runChunks (s : CtrlState) : List (ℚ × ℚ) → CtrlState × List (ℚ × ℚ)
  | [] => (s, [])
  | (now, dur) :: rest =>
    let r := scheduleChunk s now dur
    let (s', evs) := runChunks r.state rest
    (s', r.scheduled.toList ++ evs)

/-- The gapless back-to-back schedule the spec promises: the first chunk
starts at `start`, every later chunk starts where the previous one ended. -/
def expectedSchedule (start : ℚ) : List (ℚ × ℚ) → List (ℚ × ℚ)
  | [] => []
  | (_, dur) :: rest => (start, dur) :: expectedSchedule (start + dur) rest

/-- Non-underrun conditions for a chunk list: every chunk is handled while
the clock has not yet passed the cursor. -/
def nonUnderrun (s : CtrlState) : List (ℚ × ℚ) → Bool
  | [] => true
  | (now, dur) :: rest =>
    decide (now ≤ s.nextStartTime) && nonUnderrun (scheduleChunk s now dur).state rest

/-- One step of the `throttle` wrapper of `src/index.tsx:35-50`: with
`lastCall` state (none models the initial `-Infinity`), a call at time
`now` executes the wrapped function exactly when `now - lastCall ≥ delay`,
and only then updates `lastCall`. -/
def throttleStep (delay : ℚ) (lastCall : Option ℚ) (now : ℚ) : Bool × Option ℚ :=
  match lastCall with
  | none => (true, some now)
  | some lc => if delay ≤ now - lc then (true, some now) else (false, some lc)

/-- Running the throttle wrapper over a list of timestamped calls (each
carrying the argument/snapshot current at that call), returning the calls
whose execution actually reached the wrapped function. -/
def runThrottle {α : Type} (delay : ℚ) : Option ℚ → List (ℚ × α) → List (ℚ × α)
  | _, [] => []
  | lc, (t, a) :: rest =>
    let r := throttleStep delay lc t
    if r.1 then (t, a) :: runThrottle delay r.2 rest
    else runThrottle delay r.2 rest

/-- A state exercising the filtered-set pruning of `setSessionPrompts`:
the prompt Alpha is in the filtered set while still active (weight 1,
text unchanged); Beta is active and unfiltered. -/
def pruneProbeState : CtrlState :=
  { prompts := [
      { promptId := "prompt-0", text := "Alpha", weight := 1, color := "#7B61FF" },
      { promptId := "prompt-1", text := "Beta", weight := 1, color := "#5271FF" }],
    playbackState := PlaybackState.playing, nextStartTime := 3,
    filteredPrompts := ["Alpha"], connectionError := false,
    sessionPresent := true }

/-- A fresh controller: stopped, no session, no connection error, and no
prompt with positive weight. -/
def freshNoPromptState : CtrlState :=
  { prompts := [], playbackState := PlaybackState.stopped, nextStartTime := 0,
    filteredPrompts := [], connectionError := false, sessionPresent := false }

theorem expectedSchedule_chain_adjacent (start : ℚ) (chunks : List (ℚ × ℚ)) :
    List.Chain' (fun e f => f.1 = e.1 + e.2) (expectedSchedule start chunks) := by
  induction chunks generalizing start with
  | nil => simp [expectedSchedule]
  | cons c rest ih =>
    obtain ⟨now, dur⟩ := c
    cases rest with
    | nil => simp [expectedSchedule]
    | cons d rest' =>
      obtain ⟨now', dur'⟩ := d
      exact List.Chain'.cons rfl (ih (start + dur))

theorem expectedSchedule_chain_mono (start : ℚ) (chunks : List (ℚ × ℚ))
    (hdur : ∀ p ∈ chunks, 0 < p.2) :
    List.Chain' (fun e f => e.1 ≤ f.1) (expectedSchedule start chunks) := by
  induction chunks generalizing start with
  | nil => simp [expectedSchedule]
  | cons c rest ih =>
    obtain ⟨now, dur⟩ := c
    have hdur' : ∀ p ∈ rest, 0 < p.2 := fun p hp => hdur p (List.mem_cons_of_mem _ hp)
    cases rest with
    | nil => simp [expectedSchedule]
    | cons d rest' =>
      obtain ⟨now', dur'⟩ := d
      refine List.Chain'.cons ?_ (ih (start + dur) hdur')
      have h0 : 0 < dur := hdur (now, dur) (List.mem_cons_self _ _)
      simp only [expectedSchedule]
      linarith

theorem runChunks_eq_expected (chunks : List (ℚ × ℚ)) (s : CtrlState)
    (hst : s.playbackState = PlaybackState.loading ∨
      s.playbackState = PlaybackState.playing)
    (hcur : 0 < s.nextStartTime)
    (hdur : ∀ p ∈ chunks, 0 < p.2)
    (hnu : nonUnderrun s chunks = true) :
    (runChunks s chunks).2 = expectedSchedule s.nextStartTime chunks := by
  induction chunks generalizing s with
  | nil => simp [runChunks, expectedSchedule]
  | cons c rest ih =>
    obtain ⟨now, dur⟩ := c
    have hnow : now ≤ s.nextStartTime := by
      have := hnu
      simp only [nonUnderrun, Bool.and_eq_true, decide_eq_true_eq] at this
      exact this.1
    have hnu' : nonUnderrun (scheduleChunk s now dur).state rest = true := by
      have := hnu
      simp only [nonUnderrun, Bool.and_eq_true, decide_eq_true_eq] at this
      exact this.2
    have hne : s.nextStartTime ≠ 0 := ne_of_gt hcur
    have hnolt : ¬ (s.nextStartTime < now) := not_lt.mpr hnow
    have hsched : scheduleChunk s now dur =
        { state := { s with nextStartTime := s.nextStartTime + dur },
          scheduled := some (s.nextStartTime, dur), timer := none } := by
      simp [scheduleChunk, underrunAdjust, hne, hnolt]
    have h0 : 0 < dur := hdur (now, dur) (List.mem_cons_self _ _)
    have hdur' : ∀ p ∈ rest, 0 < p.2 := fun p hp => hdur p (List.mem_cons_of_mem _ hp)
    have hih := ih { s with nextStartTime := s.nextStartTime + dur }
      (by simpa using hst) (by positivity) hdur' (by rw [hsched] at hnu'; exact hnu')
    simp only [runChunks, hsched, expectedSchedule]
    simp [hih]

/-- C1: a run of chunks handled while the state is loading or playing,
with the cursor set (positive), all decodes succeeding with positive
durations, and no underrun, produces exactly the gapless schedule: the
first chunk starts at the cursor, each later chunk starts exactly where
the previous one ended (its start plus its duration), and start times are
non-decreasing. -/
theorem gapless_scheduling (s : CtrlState) (chunks : List (ℚ × ℚ))
    (hst : s.playbackState = PlaybackState.loading ∨
      s.playbackState = PlaybackState.playing)
    (hcur : 0 < s.nextStartTime)
    (hdur : ∀ p ∈ chunks, 0 < p.2)
    (hnu : nonUnderrun s chunks = true) :
    (runChunks s chunks).2 = expectedSchedule s.nextStartTime chunks ∧
    List.Chain' (fun e f => f.1 = e.1 + e.2) (runChunks s chunks).2 ∧
    List.Chain' (fun e f => e.1 ≤ f.1) (runChunks s chunks).2 := by
  have heq := runChunks_eq_expected chunks s hst hcur hdur hnu
  refine ⟨heq, ?_, ?_⟩
  · rw [heq]; exact expectedSchedule_chain_adjacent _ _
  · rw [heq]; exact expectedSchedule_chain_mono _ _ hdur

/-- Witness for `gapless_scheduling`: two chunks of durations 1 and 1/2
handled from a playing state with cursor 2, clock at 1 and 2. -/
theorem gapless_scheduling_witness :
    (runChunks
      { prompts := [], playbackState := PlaybackState.playing,
        nextStartTime := 2, filteredPrompts := [], connectionError := false,
        sessionPresent := true } [(1, 1), (2, 1 / 2)]).2 =
      [(2, 1), (3, 1 / 2)] := by
  have h := gapless_scheduling
    { prompts := [], playbackState := PlaybackState.playing,
      nextStartTime := 2, filteredPrompts := [], connectionError := false,
      sessionPresent := true } [(1, 1), (2, 1 / 2)]
    (Or.inr rfl) (by norm_num)
    (by intro p hp; simp at hp; rcases hp with h | h <;> simp [h])
    (by norm_num [nonUnderrun, scheduleChunk, underrunAdjust])
  rw [h.1]
  norm_num [expectedSchedule]

/-- C2: a chunk handled with the cursor at the unset sentinel 0 while
loading anchors the cursor at `now + bufferTime` (the chunk is started
there and the cursor ends at `now + bufferTime + dur`) and arms the
one-shot timer for `bufferTime` seconds (1500 ms); with the sentinel and
any other state the chunk is discarded unchanged; the timer callback moves
to `playing` exactly when the state is still `loading` at fire time. -/
theorem initial_anchor_and_timer (s : CtrlState) (now dur : ℚ)
    (h0 : s.nextStartTime = 0) :
    (s.playbackState = PlaybackState.loading →
      (scheduleChunk s now dur).scheduled = some (now + bufferTime, dur) ∧
      (scheduleChunk s now dur).state.nextStartTime = now + bufferTime + dur ∧
      (scheduleChunk s now dur).timer = some (bufferTime * 1000)) ∧
    (s.playbackState ≠ PlaybackState.loading →
      scheduleChunk s now dur = { state := s, scheduled := none, timer := none }) ∧
    (∀ s' : CtrlState,
      (s'.playbackState = PlaybackState.loading →
        (bufferTimerFire s').playbackState = PlaybackState.playing) ∧
      (s'.playbackState ≠ PlaybackState.loading → bufferTimerFire s' = s')) := by
  refine ⟨fun hl => ?_, fun hl => ?_, fun s' => ⟨fun hl => ?_, fun hl => ?_⟩⟩
  · have hnolate : ¬ (now + bufferTime < now) := by
      simp only [bufferTime]
      norm_num
    simp [scheduleChunk, underrunAdjust, h0, hl, hnolate]
  · simp [scheduleChunk, h0, hl]
  · simp [bufferTimerFire, hl]
  · simp [bufferTimerFire, hl]

/-- Witness for `initial_anchor_and_timer` at a concrete loading state. -/
theorem initial_anchor_and_timer_witness :
    (scheduleChunk
      { prompts := [], playbackState := PlaybackState.loading,
        nextStartTime := 0, filteredPrompts := [], connectionError := false,
        sessionPresent := true } 0 1).scheduled = some (0 + bufferTime, 1) ∧
    (bufferTimerFire
      { prompts := [], playbackState := PlaybackState.loading,
        nextStartTime := 0, filteredPrompts := [], connectionError := false,
        sessionPresent := true }).playbackState = PlaybackState.playing := by
  have h := initial_anchor_and_timer
    { prompts := [], playbackState := PlaybackState.loading,
      nextStartTime := 0, filteredPrompts := [], connectionError := false,
      sessionPresent := true } 0 1 rfl
  exact ⟨(h.1 rfl).1, (h.2.2 _).1 rfl⟩

/-- C3: a chunk handled with a nonzero cursor that has fallen behind the
clock, in a state that is neither paused nor stopped, forces the state
back to `loading`, re-anchors the cursor to `now + underrunGap`, schedules
the chunk at the re-anchored time, and the recovery gap is strictly
smaller than the initial lookahead. -/
theorem underrun_recovery (s : CtrlState) (now dur : ℚ)
    (h0 : s.nextStartTime ≠ 0)
    (hlt : s.nextStartTime < now)
    (hp : s.playbackState ≠ PlaybackState.paused)
    (hs : s.playbackState ≠ PlaybackState.stopped) :
    (scheduleChunk s now dur).state.playbackState = PlaybackState.loading ∧
    (scheduleChunk s now dur).scheduled = some (now + underrunGap, dur) ∧
    (scheduleChunk s now dur).state.nextStartTime = now + underrunGap + dur ∧
    underrunGap < bufferTime := by
  refine ⟨?_, ?_, ?_, ?_⟩
  · simp [scheduleChunk, underrunAdjust, h0, hlt, hp, hs]
  · simp [scheduleChunk, underrunAdjust, h0, hlt, hp, hs]
  · simp [scheduleChunk, underrunAdjust, h0, hlt, hp, hs]
  · norm_num [underrunGap, bufferTime]

/-- Witness for `underrun_recovery`: a playing state whose cursor (1) is
behind the clock (2). -/
theorem underrun_recovery_witness :
    (scheduleChunk
      { prompts := [], playbackState := PlaybackState.playing,
        nextStartTime := 1, filteredPrompts := [], connectionError := false,
        sessionPresent := true } 2 1).scheduled = some (2 + underrunGap, 1) ∧
    (scheduleChunk
      { prompts := [], playbackState := PlaybackState.playing,
        nextStartTime := 1, filteredPrompts := [], connectionError := false,
        sessionPresent := true } 2 1).state.playbackState = PlaybackState.loading := by
  have h := underrun_recovery
    { prompts := [], playbackState := PlaybackState.playing,
      nextStartTime := 1, filteredPrompts := [], connectionError := false,
      sessionPresent := true } 2 1 (by norm_num) (by norm_num)
    (by decide) (by decide)
  exact ⟨h.2.1, h.1⟩

/-- C4 counterexample: a chunk whose decode completes after the state has
moved to `paused` while the cursor is still set (5) is NOT discarded at the
scheduling step: `source.start` is called at the cursor and the cursor
advances by the duration. -/
theorem late_paused_chunk_still_scheduled :
    (scheduleChunk
      { prompts := [], playbackState := PlaybackState.paused,
        nextStartTime := 5, filteredPrompts := [], connectionError := false,
        sessionPresent := true } 1 2).scheduled = some (5, 2) ∧
    (scheduleChunk
      { prompts := [], playbackState := PlaybackState.paused,
        nextStartTime := 5, filteredPrompts := [], connectionError := false,
        sessionPresent := true } 1 2).state.nextStartTime = 7 := by
  constructor
  · norm_num [scheduleChunk, underrunAdjust]
  · norm_num [scheduleChunk, underrunAdjust]

/-- C4 amended: a chunk event arriving while paused or stopped is dropped
before decoding (the result does not depend on the decode outcome, no
scheduling, no cursor change); a chunk whose decode completes after a move
to `stopped` is discarded at the scheduling step because `stop()` resets
the cursor to the sentinel 0; but a chunk whose decode completes after a
move to `paused` with the cursor still set is still scheduled at the
cursor rather than discarded. -/
theorem chunk_discard_rules (s : CtrlState) (now : ℚ) (decoded : Option ℚ)
    (dur : ℚ) :
    ((s.playbackState = PlaybackState.paused ∨
        s.playbackState = PlaybackState.stopped) →
      handleChunkEvent s now decoded =
        { state := s, scheduled := none, timer := none }) ∧
    (s.playbackState = PlaybackState.stopped → s.nextStartTime = 0 →
      scheduleChunk s now dur =
        { state := s, scheduled := none, timer := none }) ∧
    (s.playbackState = PlaybackState.paused → s.nextStartTime ≠ 0 →
      (scheduleChunk s now dur).scheduled = some (s.nextStartTime, dur)) ∧
    (stop s).nextStartTime = 0 ∧
    (stop s).playbackState = PlaybackState.stopped := by
  refine ⟨fun h => ?_, fun h h0 => ?_, fun h h0 => ?_, rfl, rfl⟩
  · simp [handleChunkEvent, h]
  · simp [scheduleChunk, h, h0, reduceCtorEq]
  · simp [scheduleChunk, underrunAdjust, h, h0, reduceCtorEq]

/-- Witness for `chunk_discard_rules` at concrete paused and stopped
states. -/
theorem chunk_discard_rules_witness :
    handleChunkEvent
      { prompts := [], playbackState := PlaybackState.paused,
        nextStartTime := 5, filteredPrompts := [], connectionError := false,
        sessionPresent := true } 1 (some 2) =
      { state :=
          { prompts := [], playbackState := PlaybackState.paused,
            nextStartTime := 5, filteredPrompts := [], connectionError := false,
            sessionPresent := true },
        scheduled := none, timer := none } ∧
    scheduleChunk
      { prompts := [], playbackState := PlaybackState.stopped,
        nextStartTime := 0, filteredPrompts := [], connectionError := false,
        sessionPresent := false } 1 2 =
      { state :=
          { prompts := [], playbackState := PlaybackState.stopped,
            nextStartTime := 0, filteredPrompts := [], connectionError := false,
            sessionPresent := false },
        scheduled := none, timer := none } ∧
    (scheduleChunk
      { prompts := [], playbackState := PlaybackState.paused,
        nextStartTime := 5, filteredPrompts := [], connectionError := false,
        sessionPresent := true } 1 2).scheduled = some (5, 2) := by
  refine ⟨?_, ?_, ?_⟩
  · exact (chunk_discard_rules
      { prompts := [], playbackState := PlaybackState.paused,
        nextStartTime := 5, filteredPrompts := [], connectionError := false,
        sessionPresent := true } 1 (some 2) 2).1 (Or.inl rfl)
  · exact (chunk_discard_rules
      { prompts := [], playbackState := PlaybackState.stopped,
        nextStartTime := 0, filteredPrompts := [], connectionError := false,
        sessionPresent := false } 1 (some 2) 2).2.1 rfl rfl
  · exact (chunk_discard_rules
      { prompts := [], playbackState := PlaybackState.paused,
        nextStartTime := 5, filteredPrompts := [], connectionError := false,
        sessionPresent := true } 1 (some 2) 2).2.2.1 rfl (by norm_num)

/-- C6: an executed prompt push that finds zero active prompts while a
usable session exists and the state is playing or loading invokes
`pause()` (state becomes paused) with exactly one toast and no upstream
call; a push finding zero active prompts while already paused or stopped
makes no upstream call, shows no toast and leaves the state unchanged. -/
theorem empty_prompts_pause (s : CtrlState) (pushOk : Bool)
    (hempty : getPromptsToSend s = []) :
    (s.sessionPresent = true → s.connectionError = false →
      (s.playbackState = PlaybackState.playing ∨
        s.playbackState = PlaybackState.loading) →
      (setSessionPromptsBody s pushOk).state.playbackState =
        PlaybackState.paused ∧
      (setSessionPromptsBody s pushOk).toasts = 1 ∧
      (setSessionPromptsBody s pushOk).pauseInvoked = true ∧
      (setSessionPromptsBody s pushOk).upstream = none) ∧
    ((s.playbackState = PlaybackState.paused ∨
        s.playbackState = PlaybackState.stopped) →
      (setSessionPromptsBody s pushOk).upstream = none ∧
      (setSessionPromptsBody s pushOk).toasts = 0 ∧
      (setSessionPromptsBody s pushOk).state = s) := by
  constructor
  · intro h1 h2 h3
    rcases h3 with h3 | h3 <;>
      simp [setSessionPromptsBody, h1, h2, hempty, h3, pause]
  · intro h
    by_cases hc : (!s.sessionPresent || s.connectionError) = true
    · simp [setSessionPromptsBody, hc]
    · rcases h with h | h <;>
        simp [setSessionPromptsBody, hc, hempty, h, reduceCtorEq]

/-- Witness for `empty_prompts_pause` at a playing state with one
zero-weight prompt. -/
theorem empty_prompts_pause_witness :
    (setSessionPromptsBody
      { prompts := [{ promptId := "prompt-0", text := "Funk", weight := 0,
                      color := "#4CAF50" }],
        playbackState := PlaybackState.playing, nextStartTime := 3,
        filteredPrompts := [], connectionError := false,
        sessionPresent := true } true).state.playbackState =
      PlaybackState.paused ∧
    (setSessionPromptsBody
      { prompts := [{ promptId := "prompt-0", text := "Funk", weight := 0,
                      color := "#4CAF50" }],
        playbackState := PlaybackState.playing, nextStartTime := 3,
        filteredPrompts := [], connectionError := false,
        sessionPresent := true } true).toasts = 1 := by
  have h := empty_prompts_pause
    { prompts := [{ promptId := "prompt-0", text := "Funk", weight := 0,
                    color := "#4CAF50" }],
      playbackState := PlaybackState.playing, nextStartTime := 3,
      filteredPrompts := [], connectionError := false,
      sessionPresent := true } true
    (by norm_num [getPromptsToSend, List.filter])
  exact ⟨(h.1 rfl rfl (Or.inl rfl)).1, (h.1 rfl rfl (Or.inl rfl)).2.1⟩

/-- C8: an unclean close while the state is not stopped forces `stopped`,
sets `connectionError`, shows one toast, and clears the session handle. -/
theorem unclean_close_stops (s : CtrlState)
    (h : s.playbackState ≠ PlaybackState.stopped) :
    (onClose s false).1.playbackState = PlaybackState.stopped ∧
    (onClose s false).1.connectionError = true ∧
    (onClose s false).1.sessionPresent = false ∧
    (onClose s false).2 = 1 := by
  have hb : (s.playbackState == PlaybackState.stopped) = false := by
    simp [h]
  simp [onClose, hb]

/-- Witness for `unclean_close_stops` at a playing state. -/
theorem unclean_close_stops_witness :
    (onClose
      { prompts := [], playbackState := PlaybackState.playing,
        nextStartTime := 4, filteredPrompts := [], connectionError := false,
        sessionPresent := true } false).1.playbackState =
      PlaybackState.stopped ∧
    (onClose
      { prompts := [], playbackState := PlaybackState.playing,
        nextStartTime := 4, filteredPrompts := [], connectionError := false,
        sessionPresent := true } false).1.connectionError = true := by
  have h := unclean_close_stops
    { prompts := [], playbackState := PlaybackState.playing,
      nextStartTime := 4, filteredPrompts := [], connectionError := false,
      sessionPresent := true } (by simp)
  exact ⟨h.1, h.2.1⟩

/-- C9 (code bug evidence): because `promptsToSend` already excludes every
filtered text, the prune loop of `setSessionPrompts` deletes EVERY entry of
the filtered set on any successful non-empty push: here Alpha is removed
although its weight is still 1 and its text never changed. -/
theorem filtered_set_cleared_by_push :
    (setSessionPromptsBody pruneProbeState true).state.filteredPrompts = [] ∧
    (setSessionPromptsBody pruneProbeState true).upstream =
      some [("Beta", 1)] ∧
    pruneProbeState.filteredPrompts = ["Alpha"] ∧
    (pruneProbeState.prompts.map Prompt.text).contains ("Alpha") = true := by
  refine ⟨?_, ?_, rfl, rfl⟩
  · rfl
  · rfl

/-- Replacing the playback state, cursor and connection fields leaves
`getPromptsToSend` unchanged: it reads only the prompts and the filtered
set. -/
theorem getPromptsToSend_congr (s : CtrlState) (pb : PlaybackState) (x : ℚ)
    (ce sp : Bool) :
    getPromptsToSend
      { prompts := s.prompts, playbackState := pb, nextStartTime := x,
        filteredPrompts := s.filteredPrompts, connectionError := ce,
        sessionPresent := sp } = getPromptsToSend s := rfl

/-- C7 counterexample: `play()` on a fresh stopped controller with no
session and no active prompt ends in state `paused`, not in the initial
`stopped`: `connectToSession` sets `loading` and the empty-prompt branch
then pauses from `loading`. -/
theorem play_from_stopped_ends_paused :
    (play freshNoPromptState true true true).state.playbackState =
      PlaybackState.paused ∧
    freshNoPromptState.playbackState = PlaybackState.stopped := by
  exact ⟨rfl, rfl⟩

/-- C7 amended: `play()` from stopped or paused with no active prompt
never signals `session.play()` and always shows feedback; when a usable
session already exists the whole state is unchanged; when a fresh
connection had to be made, a successful connect leaves the state `paused`
(stopped is not preserved) and a failed connect leaves it `stopped`. -/
theorem play_no_active_prompts (s : CtrlState) (connectOk pushOk tf : Bool)
    (hst : s.playbackState = PlaybackState.stopped ∨
      s.playbackState = PlaybackState.paused)
    (hempty : getPromptsToSend s = []) :
    (play s connectOk pushOk tf).played = false ∧
    1 ≤ (play s connectOk pushOk tf).toasts ∧
    (s.sessionPresent = true → s.connectionError = false →
      (play s connectOk pushOk tf).state = s) ∧
    ((s.sessionPresent && !s.connectionError) = false →
      (connectOk = true →
        (play s connectOk pushOk tf).state.playbackState =
          PlaybackState.paused) ∧
      (connectOk = false →
        (play s connectOk pushOk tf).state.playbackState =
          PlaybackState.stopped)) := by
  have hnpl : (s.playbackState = PlaybackState.playing ∨
      s.playbackState = PlaybackState.loading) = False := by
    rcases hst with h | h
    · simp [h, reduceCtorEq]
    · simp [h, reduceCtorEq]
  by_cases hu : s.sessionPresent = true ∧ s.connectionError = false
  · obtain ⟨hsp, hce⟩ := hu
    have hplay : play s connectOk pushOk tf =
        { state := s, played := false, toasts := 0 + 1 } := by
      simp [play, hsp, hce, playAfterConnect, hempty, hnpl]
    rw [hplay]
    refine ⟨rfl, by norm_num, fun _ _ => rfl, fun hco => ?_⟩
    rw [hsp, hce] at hco
    simp at hco
  · have hco : (s.sessionPresent && !s.connectionError) = false := by
      cases hsp : s.sessionPresent
      · simp
      · cases hce : s.connectionError
        · exact absurd ⟨hsp, hce⟩ hu
        · simp [hce]
    have houter : (!s.sessionPresent || s.connectionError) = true := by
      cases hsp : s.sessionPresent
      · simp
      · cases hce : s.connectionError
        · exact absurd ⟨hsp, hce⟩ hu
        · simp [hce]
    cases connectOk
    · have hplay : (play s false pushOk tf).state.playbackState =
          PlaybackState.stopped ∧ (play s false pushOk tf).played = false ∧
          (play s false pushOk tf).toasts = 1 + 1 + 1 := by
        simp [play, houter, connectToSession, hco]
      refine ⟨hplay.2.1, by rw [hplay.2.2]; norm_num,
        fun h1 h2 => absurd ⟨h1, h2⟩ hu, fun _ => ?_⟩
      exact ⟨fun hc => by simp at hc, fun _ => hplay.1⟩
    · have hplay : (play s true pushOk tf).state.playbackState =
          PlaybackState.paused ∧ (play s true pushOk tf).played = false ∧
          (play s true pushOk tf).toasts = 1 + 0 + 1 := by
        simp [play, houter, connectToSession, hco, playAfterConnect,
              getPromptsToSend_congr, hempty, pause]
      refine ⟨hplay.2.1, by rw [hplay.2.2]; norm_num,
        fun h1 h2 => absurd ⟨h1, h2⟩ hu,
        fun _ => ⟨fun _ => hplay.1, fun hc => by simp at hc⟩⟩

/-- Witness for `play_no_active_prompts` at the fresh stopped
controller. -/
theorem play_no_active_prompts_witness :
    (play freshNoPromptState true true true).played = false ∧
    (play freshNoPromptState true true true).state.playbackState =
      PlaybackState.paused := by
  have h := play_no_active_prompts freshNoPromptState true true true
    (Or.inl rfl) rfl
  exact ⟨h.1, (h.2.2.2 rfl).1 rfl⟩

/-- C10: the loading-to-playing timer is armed only on the branch where
the cursor is the unset sentinel 0 and the state is loading; hence after
an underrun recovery (state loading, cursor nonzero), handling any further
chunk arms no timer, keeps the state loading and the cursor nonzero, and
still schedules the chunk — the state stays loading until a user action;
in particular the play/pause toggle from loading invokes `stop()`. -/
theorem no_timer_after_underrun (s : CtrlState) (now dur : ℚ)
    (hl : s.playbackState = PlaybackState.loading)
    (h0 : s.nextStartTime ≠ 0)
    (hnow : 0 ≤ now) (hdur : 0 ≤ dur) :
    (scheduleChunk s now dur).timer = none ∧
    (scheduleChunk s now dur).state.playbackState = PlaybackState.loading ∧
    (scheduleChunk s now dur).state.nextStartTime ≠ 0 ∧
    (scheduleChunk s now dur).scheduled.isSome = true ∧
    (∀ (s' : CtrlState) (now' dur' : ℚ),
      (scheduleChunk s' now' dur').timer ≠ none →
      s'.nextStartTime = 0 ∧ s'.playbackState = PlaybackState.loading) ∧
    (∀ c p t : Bool, handlePlayPause s c p t = stop s) := by
  have hcond : ¬(s.nextStartTime = 0 ∧
      s.playbackState = PlaybackState.loading) := fun h => h0 h.1
  have htimer : ∀ (s' : CtrlState) (now' dur' : ℚ),
      (scheduleChunk s' now' dur').timer ≠ none →
      s'.nextStartTime = 0 ∧ s'.playbackState = PlaybackState.loading := by
    intro s' now' dur' h
    by_cases hg : s'.nextStartTime = 0 ∧
        s'.playbackState = PlaybackState.loading
    · exact hg
    · exfalso
      apply h
      by_cases h0' : s'.nextStartTime = 0
      · have hB : ¬ s'.playbackState = PlaybackState.loading :=
          fun hb => hg ⟨h0', hb⟩
        simp [scheduleChunk, h0', hB]
      · simp [scheduleChunk, hg, h0']
  have htoggle : ∀ c p t : Bool, handlePlayPause s c p t = stop s := by
    intro c p t
    simp [handlePlayPause, hl]
  have hg0 : (0 : ℚ) < underrunGap := by norm_num [underrunGap]
  by_cases hu : s.nextStartTime < now
  · have hp : s.playbackState ≠ PlaybackState.paused := by simp [hl]
    have hsn : s.playbackState ≠ PlaybackState.stopped := by simp [hl]
    have hnst : (scheduleChunk s now dur).state.nextStartTime =
        now + underrunGap + dur := by
      simp [scheduleChunk, underrunAdjust, hcond, h0, hu, hp, hsn]
    refine ⟨?_, ?_, ?_, ?_, htimer, htoggle⟩
    · simp [scheduleChunk, hcond, h0]
    · simp [scheduleChunk, underrunAdjust, hcond, h0, hu, hp, hsn]
    · rw [hnst]
      intro hc
      linarith
    · simp [scheduleChunk, hcond, h0]
  · have hpos : 0 < s.nextStartTime :=
      lt_of_le_of_ne (le_trans hnow (not_lt.mp hu)) (Ne.symm h0)
    have hnst : (scheduleChunk s now dur).state.nextStartTime =
        s.nextStartTime + dur := by
      simp [scheduleChunk, underrunAdjust, hcond, h0, hu]
    refine ⟨?_, ?_, ?_, ?_, htimer, htoggle⟩
    · simp [scheduleChunk, hcond, h0]
    · simp [scheduleChunk, underrunAdjust, hcond, h0, hu, hl]
    · rw [hnst]
      intro hc
      linarith
    · simp [scheduleChunk, hcond, h0]

/-- Witness for `no_timer_after_underrun`: loading state with cursor 1
(set by an earlier underrun recovery), next chunk at clock 2. -/
theorem no_timer_after_underrun_witness :
    (scheduleChunk
      { prompts := [], playbackState := PlaybackState.loading,
        nextStartTime := 1, filteredPrompts := [], connectionError := false,
        sessionPresent := true } 2 1).timer = none ∧
    (scheduleChunk
      { prompts := [], playbackState := PlaybackState.loading,
        nextStartTime := 1, filteredPrompts := [], connectionError := false,
        sessionPresent := true } 2 1).state.playbackState =
      PlaybackState.loading := by
  have h := no_timer_after_underrun
    { prompts := [], playbackState := PlaybackState.loading,
      nextStartTime := 1, filteredPrompts := [], connectionError := false,
      sessionPresent := true } 2 1 rfl (by norm_num) (by norm_num) (by norm_num)
  exact ⟨h.1, h.2.1⟩

theorem runThrottle_sublist {α : Type} (delay : ℚ) (lc : Option ℚ)
    (events : List (ℚ × α)) :
    (runThrottle delay lc events).Sublist events := by
  induction events generalizing lc with
  | nil => simp [runThrottle]
  | cons e rest ih =>
    obtain ⟨t, a⟩ := e
    simp only [runThrottle]
    by_cases hr : (throttleStep delay lc t).1 = true
    · simp only [hr, if_true]
      exact List.Sublist.cons₂ _ (ih _)
    · simp only [hr, if_false, Bool.false_eq_true]
      exact List.Sublist.cons _ (ih _)

theorem runThrottle_gap_aux {α : Type} (delay : ℚ) (events : List (ℚ × α))
    (l : ℚ)
    (hsorted : List.Pairwise (fun p q => p.1 ≤ q.1) events)
    (hl : ∀ e ∈ events, l ≤ e.1) :
    List.Pairwise (fun p q => p.1 + delay ≤ q.1)
      (runThrottle delay (some l) events) ∧
    ∀ e ∈ runThrottle delay (some l) events, l + delay ≤ e.1 := by
  induction events generalizing l with
  | nil => simp [runThrottle]
  | cons e rest ih =>
    obtain ⟨t, a⟩ := e
    have hlt : l ≤ t := hl (t, a) (List.mem_cons_self _ _)
    have hpc := List.pairwise_cons.mp hsorted
    by_cases hd : delay ≤ t - l
    · have hstep : throttleStep delay (some l) t = (true, some t) := by
        simp [throttleStep, hd]
      have hrun : runThrottle delay (some l) ((t, a) :: rest) =
          (t, a) :: runThrottle delay (some t) rest := by
        simp [runThrottle, hstep]
      have hih := ih t hpc.2 (fun e he => hpc.1 e he)
      rw [hrun]
      constructor
      · exact List.Pairwise.cons (fun e he => hih.2 e he) hih.1
      · intro e he
        rcases List.mem_cons.mp he with he | he
        · rw [he]
          linarith
        · have := hih.2 e he
          linarith
    · have hstep : throttleStep delay (some l) t = (false, some l) := by
        simp [throttleStep, hd]
      have hrun : runThrottle delay (some l) ((t, a) :: rest) =
          runThrottle delay (some l) rest := by
        simp [runThrottle, hstep]
      have hrest : ∀ e ∈ rest, l ≤ e.1 :=
        fun e he => hl e (List.mem_cons_of_mem _ he)
      rw [hrun]
      exact ih l hpc.2 hrest

/-- C5: over any time-sorted burst of prompt-change calls (each carrying
the snapshot current at its call time), the throttled `setSessionPrompts`
executes with gaps of at least the 250 ms interval between any two
executions (at most one upstream call per interval), and the executed
calls are a sublist of the input calls — each delivered snapshot is the
one paired with its own delivery time, never a stale one (the body reads
the live prompt map at execution time). -/
theorem throttled_push_coalesces {α : Type} (events : List (ℚ × α))
    (hsorted : List.Pairwise (fun p q => p.1 ≤ q.1) events) :
    List.Pairwise (fun p q => p.1 + throttleDelay ≤ q.1)
      (runThrottle throttleDelay none events) ∧
    (runThrottle throttleDelay none events).Sublist events := by
  refine ⟨?_, runThrottle_sublist _ _ _⟩
  cases events with
  | nil => simp [runThrottle]
  | cons e rest =>
    obtain ⟨t, a⟩ := e
    have hpc := List.pairwise_cons.mp hsorted
    have hstep : throttleStep throttleDelay none t = (true, some t) := by
      simp [throttleStep]
    have hrun : runThrottle throttleDelay none ((t, a) :: rest) =
        (t, a) :: runThrottle throttleDelay (some t) rest := by
      simp [runThrottle, hstep]
    have hih := runThrottle_gap_aux throttleDelay rest t hpc.2
      (fun e he => hpc.1 e he)
    rw [hrun]
    exact List.Pairwise.cons (fun e he => hih.2 e he) hih.1

/-- Witness for `throttled_push_coalesces`: three calls at 0, 100 and
300 ms; the 100 ms call is suppressed, the 0 and 300 ms calls execute. -/
theorem throttled_push_coalesces_witness :
    runThrottle throttleDelay none [((0 : ℚ), 1), (100, 2), (300, 3)] =
      [((0 : ℚ), (1 : Nat)), (300, 3)] ∧
    List.Pairwise (fun p q => p.1 + throttleDelay ≤ q.1)
      [((0 : ℚ), (1 : Nat)), (300, 3)] := by
  have h := throttled_push_coalesces [((0 : ℚ), (1 : Nat)), (100, 2), (300, 3)]
    (by norm_num [List.pairwise_cons])
  have heq : runThrottle throttleDelay none
      [((0 : ℚ), (1 : Nat)), (100, 2), (300, 3)] = [((0 : ℚ), (1 : Nat)), (300, 3)] := by
    norm_num [runThrottle, throttleStep, throttleDelay]
  refine ⟨heq, ?_⟩
  have := h.1
  rw [heq] at this
  exact this

end MusicDJ
